import Mathlib

/-
Verification development for the distributed-kv-store service
(internal/service/service.go): an in-memory key-value store with
prefix-based change-notification subscriptions.

The embedding models the Go service as pure state-passing functions:
the sync.Map store becomes a function from keys to optional stored
values, the subscribers map becomes an association list from pattern
strings to subscriber lists, and each bounded channel of capacity 100
becomes a list of pending events governed by a non-blocking enqueue.
Pointer identity of subscriber objects is modelled by a numeric id.
-/

namespace KVStore

/-- A value held in the sync.Map; Go stores values of type any, so a
stored value is either a string or some non-string value. -/
inductive GoValue where
  | str (s : String)
  | nonString (tag : Nat)
  deriving DecidableEq, Repr

/-- The change type of an event (proto enum; only SET is produced). -/
inductive ChangeType where
  | SET
  deriving DecidableEq, Repr

/-- A ChangeEvent as constructed in Set: change type, key, value and
the Unix-millisecond timestamp taken at commit time. -/
structure ChangeEvent where
  changeType : ChangeType
  key : String
  value : String
  timestamp : Int
  deriving DecidableEq, Repr

/-- One registered subscriber: its pattern, its bounded event queue
(the buffered channel of capacity 100), and an id standing for the
pointer identity of the Go subscriber object. -/
structure Subscriber where
  id : Nat
  pattern : String
  events : List ChangeEvent
  deriving DecidableEq, Repr

/-- The subscribers map: pattern to list of subscribers. -/
abbrev Registry := List (String × List Subscriber)

/-- Go strings.HasPrefix, on the underlying character sequences. -/
def strHasPre (s pre : String) : Bool :=
  pre.data.isPrefixOf s.data

/-- Map read: first entry for the pattern, if any. -/
def lookupPat (p : String) : Registry → Option (List Subscriber)
  | [] => none
  | e :: rest => if e.1 = p then some e.2 else lookupPat p rest

/-- Go map read with zero value: a missing pattern reads as nil. -/
def getSubs (m : Registry) (p : String) : List Subscriber :=
  (lookupPat p m).getD []

/-- Map assignment: replace the entry for the pattern, or append one. -/
def setSubs (p : String) (l : List Subscriber) : Registry → Registry
  | [] => [(p, l)]
  | e :: rest => if e.1 = p then (p, l) :: rest else e :: setSubs p l rest

/-- Map delete for the pattern. -/
def delSubs (p : String) : Registry → Registry
  | [] => []
  | e :: rest => if e.1 = p then delSubs p rest else e :: delSubs p rest

/-- Non-blocking channel send on a buffered channel of capacity 100:
append when there is room, silently drop otherwise. -/
def tryEnqueue (q : List ChangeEvent) (ev : ChangeEvent) : List ChangeEvent :=
  if q.length < 100 then q ++ [ev] else q

/-- The enqueue attempt for one subscriber during fan-out. -/
def tryEnqSub (ev : ChangeEvent) (sub : Subscriber) : Subscriber :=
  { sub with events := tryEnqueue sub.events ev }

/-- notifySubscribers: for every pattern entry whose pattern is a
string prefix of the event key, attempt a non-blocking enqueue into
every subscriber registered under that pattern. -/
def notifySubscribers (ev : ChangeEvent) (m : Registry) : Registry :=
  m.map fun e =>
    if strHasPre ev.key e.1 then (e.1, e.2.map (tryEnqSub ev)) else e

/-- The loop body of removeSubscriber: drop the first subscriber in
the list whose identity matches, leave the rest untouched. -/
def removeFirst (sub : Subscriber) : List Subscriber → List Subscriber
  | [] => []
  | x :: xs => if x.id = sub.id then xs else x :: removeFirst sub xs

/-- removeSubscriber: remove the identity-matching subscriber from the
list under the pattern (assignment happens only when a match is
found), then delete the pattern entry if its list is now empty. -/
def removeSubscriber (m : Registry) (p : String) (sub : Subscriber) : Registry :=
  let subs := getSubs m p
  let m1 := if subs.any (fun x => x.id == sub.id)
            then setSubs p (removeFirst sub subs) m else m
  if (getSubs m1 p).isEmpty then delSubs p m1 else m1

/-- A freshly created subscriber: given pattern, empty queue. -/
def mkSubscriber (id : Nat) (p : String) : Subscriber :=
  { id := id, pattern := p, events := [] }

/-- Registration step of Subscribe: append the subscriber to the list
under its pattern. -/
def registerSubscriber (m : Registry) (p : String) (sub : Subscriber) : Registry :=
  setSubs p (getSubs m p ++ [sub]) m

/-- The whole service state: the sync.Map store and the registry. -/
structure ServiceState where
  store : String → Option GoValue
  subscribers : Registry

/-- gRPC status codes produced by the service. -/
inductive Code where
  | invalidArgument
  | internal
  deriving DecidableEq, Repr

/-- The GetResponse message. -/
structure GetResponse where
  value : String
  found : Bool
  deriving DecidableEq, Repr

/-- The SetResponse message. -/
structure SetResponse where
  success : Bool
  message : String
  deriving DecidableEq, Repr

/-- sync.Map.Store on the store component. -/
def storeSet (st : String → Option GoValue) (k : String) (v : GoValue) :
    String → Option GoValue :=
  fun q => if q = k then some v else st q

/-- KVStoreService.Get: reject the empty key, report a miss as
(empty, false), report a non-string stored value as an internal
error, and otherwise return the value with found set. -/
def Get (s : ServiceState) (key : String) : Except Code GetResponse :=
  if key = "" then .error .invalidArgument
  else
    match s.store key with
    | none => .ok { value := "", found := false }
    | some (GoValue.str v) => .ok { value := v, found := true }
    | some (GoValue.nonString _) => .error .internal

/-- KVStoreService.Set: reject the empty key, store the value, build
one ChangeEvent with the commit timestamp, hand it to the fan-out and
report success. -/
def Set (s : ServiceState) (key value : String) (now : Int) :
    Except Code (ServiceState × SetResponse) :=
  if key = "" then .error .invalidArgument
  else
    let ev : ChangeEvent :=
      { changeType := ChangeType.SET, key := key, value := value, timestamp := now }
    .ok ({ store := storeSet s.store key (GoValue.str value),
           subscribers := notifySubscribers ev s.subscribers },
         { success := true, message := "key stored successfully" })

/-- Registration part of KVStoreService.Subscribe: reject the empty
pattern, otherwise create a subscriber with an empty queue and
register it under the pattern. -/
def Subscribe (s : ServiceState) (pat : String) (id : Nat) :
    Except Code (ServiceState × Subscriber) :=
  if pat = "" then .error .invalidArgument
  else
    let sub := mkSubscriber id pat
    .ok ({ s with subscribers := registerSubscriber s.subscribers pat sub }, sub)

/-- A client-visible operation on the store endpoints. -/
inductive Op where
  | get (key : String)
  | set (key value : String) (now : Int)
  deriving DecidableEq, Repr

/-- Whether an operation is a Set to the given key. -/
def Op.setsKey (op : Op) (k : String) : Bool :=
  match op with
  | .set q _ _ => q == k
  | .get _ => false

/-- State transition of one operation: Get leaves the state unchanged
and a failing Set leaves the state unchanged. -/
def step (s : ServiceState) : Op → ServiceState
  | .get _ => s
  | .set k v t =>
      match Set s k v t with
      | .ok (s1, _) => s1
      | .error _ => s

/-- The state of a fresh service: empty store, empty registry. -/
def initState : ServiceState :=
  { store := fun _ => none, subscribers := [] }

/-- The state after running a sequence of operations from a fresh
service. -/
def run (ops : List Op) : ServiceState :=
  ops.foldl step initState

end KVStore

namespace KVStore

theorem set_ok (s : ServiceState) (k v : String) (t : Int) (hk : k ≠ "") :
    Set s k v t = Except.ok
      ({ store := storeSet s.store k (GoValue.str v),
         subscribers := notifySubscribers
           { changeType := ChangeType.SET, key := k, value := v, timestamp := t }
           s.subscribers },
       { success := true, message := "key stored successfully" }) := by
  simp [Set, hk]

/-- C4: Set, Get and Subscribe on the empty key or pattern each fail
with InvalidArgument; on those error paths no new state is produced,
so the store, the registry and the event stream are untouched. -/
theorem empty_key_invalid_argument (s : ServiceState) (v : String) (t : Int) (id : Nat) :
    Get s "" = Except.error Code.invalidArgument ∧
    Set s "" v t = Except.error Code.invalidArgument ∧
    Subscribe s "" id = Except.error Code.invalidArgument := by
  refine ⟨rfl, rfl, rfl⟩

/-- C10: for a non-empty key, Set always returns Success true with the
message key stored successfully; the failure response is never built. -/
theorem set_returns_success (s : ServiceState) (k v : String) (t : Int) (hk : k ≠ "") :
    ∃ s1, Set s k v t =
      Except.ok (s1, { success := true, message := "key stored successfully" }) :=
  ⟨_, set_ok s k v t hk⟩

theorem set_returns_success_witness :
    ("a" : String) ≠ "" ∧
    ∃ s1, Set initState "a" "b" 5 =
      Except.ok (s1, { success := true, message := "key stored successfully" }) :=
  ⟨by decide, set_returns_success initState "a" "b" 5 (by decide)⟩

/-- The two-subscriber overlap scenario of C5. -/
def regAB : Registry :=
  [("user:", [mkSubscriber 0 "user:"]), ("user:1", [mkSubscriber 1 "user:1"])]

/-- C5 counterexample: for the key user:999 the matching subscription
is the one under user:, not the one under user:1, whose queue stays
empty. -/
theorem overlapping_prefix_counterexample :
    notifySubscribers ⟨ChangeType.SET, "user:999", "v", 0⟩ regAB =
      [("user:", [⟨0, "user:", [⟨ChangeType.SET, "user:999", "v", 0⟩]⟩]),
       ("user:1", [⟨1, "user:1", []⟩])] ∧
    strHasPre "user:999" "user:1" = false ∧
    strHasPre "user:999" "user:" = true := by
  decide

/-- C5 amended: with subscriptions under user: and user:1, a Set of
user:123 enqueues the event to both subscribers, and a Set of
user:999 enqueues it only to the subscriber under user:. -/
theorem overlapping_prefix_delivery :
    (∃ s1 r, Set { store := fun _ => none, subscribers := regAB } "user:123" "v" 0 =
        Except.ok (s1, r) ∧
      s1.subscribers =
        [("user:", [⟨0, "user:", [⟨ChangeType.SET, "user:123", "v", 0⟩]⟩]),
         ("user:1", [⟨1, "user:1", [⟨ChangeType.SET, "user:123", "v", 0⟩]⟩])]) ∧
    (∃ s1 r, Set { store := fun _ => none, subscribers := regAB } "user:999" "v" 0 =
        Except.ok (s1, r) ∧
      s1.subscribers =
        [("user:", [⟨0, "user:", [⟨ChangeType.SET, "user:999", "v", 0⟩]⟩]),
         ("user:1", [⟨1, "user:1", []⟩])]) := by
  constructor
  · exact ⟨_, _, set_ok _ "user:123" "v" 0 (by decide), by decide⟩
  · exact ⟨_, _, set_ok _ "user:999" "v" 0 (by decide), by decide⟩

end KVStore

namespace KVStore

theorem storeSet_self (st : String → Option GoValue) (k : String) (v : GoValue) :
    storeSet st k v k = some v := by
  simp [storeSet]

theorem storeSet_ne (st : String → Option GoValue) (k q : String) (v : GoValue)
    (h : q ≠ k) : storeSet st k v q = st q := by
  simp [storeSet, h]

theorem get_of_str (s : ServiceState) (k v : String) (hk : k ≠ "")
    (h : s.store k = some (GoValue.str v)) :
    Get s k = Except.ok { value := v, found := true } := by
  simp [Get, hk, h]

theorem step_preserve (s : ServiceState) (op : Op) (k : String)
    (h : op.setsKey k = false) : (step s op).store k = s.store k := by
  cases op with
  | get q => rfl
  | set q v t =>
      simp only [Op.setsKey, beq_eq_false_iff_ne, ne_eq] at h
      by_cases hq : q = ""
      · simp [step, Set, hq]
      · have h2 : k ≠ q := fun hkq => h hkq.symm
        simp [step, set_ok s q v t hq, storeSet, h2]

theorem foldl_preserve (ops : List Op) (s : ServiceState) (k : String)
    (h : ∀ op ∈ ops, op.setsKey k = false) :
    (ops.foldl step s).store k = s.store k := by
  induction ops generalizing s with
  | nil => rfl
  | cons op rest ih =>
      have h1 : op.setsKey k = false := h op (List.mem_cons_self op rest)
      have h2 : ∀ o ∈ rest, o.setsKey k = false := fun o ho => h o (List.mem_cons_of_mem op ho)
      calc ((op :: rest).foldl step s).store k
          = (rest.foldl step (step s op)).store k := rfl
        _ = (step s op).store k := ih (step s op) h2
        _ = s.store k := step_preserve s op k h1

/-- C1: after a successful Set of key k to v, Get of k returns v with
found set, this persists across any sequence of Gets and of Sets to
other keys, and a later Set of k to v2 makes Get of k return v2. -/
theorem set_get_roundtrip (s : ServiceState) (k v v2 : String) (t t2 : Int)
    (ops : List Op) (hk : k ≠ "")
    (hops : ∀ op ∈ ops, op.setsKey k = false) :
    ∃ s1 r1, Set s k v t = Except.ok (s1, r1) ∧
      Get s1 k = Except.ok { value := v, found := true } ∧
      Get (ops.foldl step s1) k = Except.ok { value := v, found := true } ∧
      ∃ s3 r3, Set (ops.foldl step s1) k v2 t2 = Except.ok (s3, r3) ∧
        Get s3 k = Except.ok { value := v2, found := true } := by
  refine ⟨_, _, set_ok s k v t hk, ?_, ?_, ?_⟩
  · exact get_of_str _ k v hk (storeSet_self s.store k (GoValue.str v))
  · refine get_of_str _ k v hk ?_
    calc (ops.foldl step _).store k
        = (storeSet s.store k (GoValue.str v)) k := foldl_preserve ops _ k hops
      _ = some (GoValue.str v) := storeSet_self s.store k (GoValue.str v)
  · refine ⟨_, _, set_ok _ k v2 t2 hk, ?_⟩
    exact get_of_str _ k v2 hk (storeSet_self _ k (GoValue.str v2))

theorem set_get_roundtrip_witness :
    ("a" : String) ≠ "" ∧
    (∀ op ∈ ([Op.get "a", Op.set "b" "x" 3] : List Op), op.setsKey "a" = false) ∧
    (∃ s1 r1, Set initState "a" "v" 1 = Except.ok (s1, r1) ∧
      Get s1 "a" = Except.ok { value := "v", found := true } ∧
      Get (([Op.get "a", Op.set "b" "x" 3] : List Op).foldl step s1) "a" =
        Except.ok { value := "v", found := true } ∧
      ∃ s3 r3, Set (([Op.get "a", Op.set "b" "x" 3] : List Op).foldl step s1) "a" "w" 2 =
          Except.ok (s3, r3) ∧
        Get s3 "a" = Except.ok { value := "w", found := true }) :=
  ⟨by decide, by decide,
   set_get_roundtrip initState "a" "v" "w" 1 2 [Op.get "a", Op.set "b" "x" 3]
     (by decide) (by decide)⟩

/-- Every value in the store component is a string. -/
def StoreOK (s : ServiceState) : Prop :=
  ∀ k val, s.store k = some val → ∃ v, val = GoValue.str v

theorem storeOK_init : StoreOK initState := by
  intro k val h
  simp [initState] at h

theorem storeOK_step (s : ServiceState) (op : Op) (h : StoreOK s) :
    StoreOK (step s op) := by
  cases op with
  | get q => exact h
  | set q v t =>
      by_cases hq : q = ""
      · simpa [step, Set, hq] using h
      · intro k val hk
        rw [step, set_ok s q v t hq] at hk
        simp only [storeSet] at hk
        by_cases hkq : k = q
        · simp only [hkq, if_pos] at hk
          exact ⟨v, ((Option.some.injEq _ _).mp hk).symm⟩
        · rw [if_neg hkq] at hk
          exact h k val hk

theorem storeOK_run (ops : List Op) : StoreOK (run ops) := by
  have general : ∀ (l : List Op) (s : ServiceState), StoreOK s → StoreOK (l.foldl step s) := by
    intro l
    induction l with
    | nil => exact fun s hs => hs
    | cons op rest ih => exact fun s hs => ih (step s op) (storeOK_step s op hs)
  exact general ops initState storeOK_init

/-- C9: in every state reachable by Get and Set operations from a
fresh service, every stored value is a string, so Get on a non-empty
key never takes the internal-error branch and never fails. -/
theorem get_never_internal_error (ops : List Op) (k : String) (hk : k ≠ "") :
    (∀ val, (run ops).store k = some val → ∃ v, val = GoValue.str v) ∧
    ∃ r, Get (run ops) k = Except.ok r := by
  refine ⟨fun val h => storeOK_run ops k val h, ?_⟩
  cases hstore : (run ops).store k with
  | none => exact ⟨{ value := "", found := false }, by simp [Get, hk, hstore]⟩
  | some val =>
      obtain ⟨v, rfl⟩ := storeOK_run ops k val hstore
      exact ⟨{ value := v, found := true }, get_of_str _ k v hk hstore⟩

theorem get_never_internal_error_witness :
    ("a" : String) ≠ "" ∧
    ((∀ val, (run [Op.set "a" "x" 0]).store "a" = some val → ∃ v, val = GoValue.str v) ∧
     ∃ r, Get (run [Op.set "a" "x" 0]) "a" = Except.ok r) :=
  ⟨by decide, get_never_internal_error [Op.set "a" "x" 0] "a" (by decide)⟩

end KVStore

namespace KVStore

theorem lookup_notify (ev : ChangeEvent) (m : Registry) (p : String) :
    lookupPat p (notifySubscribers ev m) =
      (lookupPat p m).map
        (fun subs => if strHasPre ev.key p then subs.map (tryEnqSub ev) else subs) := by
  induction m with
  | nil => rfl
  | cons e rest ih =>
      obtain ⟨q, subs⟩ := e
      by_cases he : q = p
      · subst he
        cases hm : strHasPre ev.key q <;>
          simp [notifySubscribers, lookupPat, hm]
      · cases hm : strHasPre ev.key q <;>
          simp only [notifySubscribers, List.map_cons, lookupPat, hm, he] <;>
          simp only [Bool.false_eq_true, if_false, if_true, ite_false, ite_true, he] <;>
          simpa [notifySubscribers] using ih

/-- C2: during fan-out, an enqueue attempt is made into the list of
subscribers under a pattern exactly when the pattern is a string
prefix of the event key; the list under a non-matching pattern is
left untouched. -/
theorem publish_matches_iff (ev : ChangeEvent) (m : Registry) (p : String)
    (subs : List Subscriber) (h : lookupPat p m = some subs) :
    lookupPat p (notifySubscribers ev m) =
      some (if strHasPre ev.key p then subs.map (tryEnqSub ev) else subs) := by
  rw [lookup_notify, h]
  rfl

theorem publish_matches_iff_witness :
    lookupPat "a" [("a", [mkSubscriber 0 "a"])] = some [mkSubscriber 0 "a"] ∧
    lookupPat "a"
        (notifySubscribers ⟨ChangeType.SET, "ab", "x", 0⟩ [("a", [mkSubscriber 0 "a"])]) =
      some (if strHasPre "ab" "a" then
              [mkSubscriber 0 "a"].map (tryEnqSub ⟨ChangeType.SET, "ab", "x", 0⟩)
            else [mkSubscriber 0 "a"]) :=
  ⟨by decide,
   publish_matches_iff ⟨ChangeType.SET, "ab", "x", 0⟩ [("a", [mkSubscriber 0 "a"])] "a"
     [mkSubscriber 0 "a"] (by decide)⟩

theorem tryEnqueue_length_le (q : List ChangeEvent) (ev : ChangeEvent)
    (h : q.length ≤ 100) : (tryEnqueue q ev).length ≤ 100 := by
  unfold tryEnqueue
  split
  · simp only [List.length_append, List.length_singleton]
    omega
  · exact h

theorem foldl_tryEnqueue (evs : List ChangeEvent) (q : List ChangeEvent)
    (h : q.length ≤ 100) :
    evs.foldl tryEnqueue q = q ++ evs.take (100 - q.length) := by
  induction evs generalizing q with
  | nil => simp
  | cons ev rest ih =>
      by_cases hlt : q.length < 100
      · have henq : tryEnqueue q ev = q ++ [ev] := by simp [tryEnqueue, hlt]
        have hlen : (q ++ [ev]).length ≤ 100 := by
          simp only [List.length_append, List.length_singleton]
          omega
        rw [List.foldl_cons, henq, ih (q ++ [ev]) hlen]
        have hm : 100 - q.length = (100 - (q ++ [ev]).length) + 1 := by
          simp only [List.length_append, List.length_singleton]
          omega
        rw [hm, List.take_succ_cons, List.append_assoc]
        rfl
      · have henq : tryEnqueue q ev = q := by simp [tryEnqueue, hlt]
        have h100 : q.length = 100 := by omega
        rw [List.foldl_cons, henq, ih q h]
        simp [h100]

theorem foldl_notify_single (evs : List ChangeEvent) (p : String) (sub : Subscriber)
    (h : ∀ ev ∈ evs, strHasPre ev.key p = true) :
    evs.foldl (fun acc ev => notifySubscribers ev acc) [(p, [sub])] =
      [(p, [{ sub with events := evs.foldl tryEnqueue sub.events }])] := by
  induction evs generalizing sub with
  | nil => rfl
  | cons ev rest ih =>
      have h1 : strHasPre ev.key p = true := h ev (List.mem_cons_self ev rest)
      have h2 : ∀ e ∈ rest, strHasPre e.key p = true :=
        fun e he => h e (List.mem_cons_of_mem ev he)
      have hstep : notifySubscribers ev [(p, [sub])] = [(p, [tryEnqSub ev sub])] := by
        simp [notifySubscribers, h1]
      rw [List.foldl_cons, hstep, ih (tryEnqSub ev sub) h2]
      rfl

/-- C3: with one fresh matching subscription and 101 published events,
exactly the first 100 events are queued in publish order, the 101st is
dropped at the tail leaving the 100 older events in place, the queue
never exceeds 100, and the writer still gets a success response. -/
theorem queue_capacity_drop_newest (sub : Subscriber) (evs : List ChangeEvent)
    (h0 : sub.events = []) (hlen : evs.length = 101)
    (hmatch : ∀ ev ∈ evs, strHasPre ev.key sub.pattern = true) :
    evs.foldl (fun acc ev => notifySubscribers ev acc) [(sub.pattern, [sub])] =
      [(sub.pattern, [{ sub with events := evs.take 100 }])] ∧
    (evs.take 100).length = 100 ∧
    (∀ (q : List ChangeEvent) (ev : ChangeEvent),
        q.length ≤ 100 → (tryEnqueue q ev).length ≤ 100) ∧
    (∀ (s : ServiceState) (k v : String) (t : Int),
        k ≠ "" → ∃ x, Set s k v t = Except.ok x) := by
  refine ⟨?_, ?_, ?_, ?_⟩
  · rw [foldl_notify_single evs sub.pattern sub hmatch, h0,
      foldl_tryEnqueue evs [] (by simp)]
    simp
  · rw [List.length_take]
    omega
  · exact fun q ev hq => tryEnqueue_length_le q ev hq
  · exact fun s k v t hk => ⟨_, set_ok s k v t hk⟩

/-- 101 events on the key k, used to exercise the capacity bound. -/
def c3evs : List ChangeEvent :=
  (List.range 101).map fun i => ⟨ChangeType.SET, "k", toString i, 0⟩

theorem queue_capacity_drop_newest_witness :
    (mkSubscriber 5 "k").events = [] ∧
    c3evs.length = 101 ∧
    (∀ ev ∈ c3evs, strHasPre ev.key (mkSubscriber 5 "k").pattern = true) ∧
    (c3evs.foldl (fun acc ev => notifySubscribers ev acc)
        [((mkSubscriber 5 "k").pattern, [mkSubscriber 5 "k"])] =
      [((mkSubscriber 5 "k").pattern,
        [{ mkSubscriber 5 "k" with events := c3evs.take 100 }])] ∧
     (c3evs.take 100).length = 100 ∧
     (∀ (q : List ChangeEvent) (ev : ChangeEvent),
         q.length ≤ 100 → (tryEnqueue q ev).length ≤ 100) ∧
     (∀ (s : ServiceState) (k v : String) (t : Int),
         k ≠ "" → ∃ x, Set s k v t = Except.ok x)) :=
  ⟨by decide, by decide, by decide,
   queue_capacity_drop_newest (mkSubscriber 5 "k") c3evs (by decide) (by decide) (by decide)⟩

end KVStore

namespace KVStore

theorem lookup_setSubs_self (p : String) (l : List Subscriber) (m : Registry) :
    lookupPat p (setSubs p l m) = some l := by
  induction m with
  | nil => simp [setSubs, lookupPat]
  | cons e rest ih =>
      by_cases he : e.1 = p
      · simp [setSubs, lookupPat, he]
      · simp [setSubs, lookupPat, he, ih]

theorem lookup_setSubs_ne (p q : String) (l : List Subscriber) (m : Registry)
    (h : q ≠ p) : lookupPat q (setSubs p l m) = lookupPat q m := by
  induction m with
  | nil => simp [setSubs, lookupPat, Ne.symm h]
  | cons e rest ih =>
      by_cases he : e.1 = p
      · simp [setSubs, lookupPat, he, Ne.symm h]
      · by_cases heq : e.1 = q
        · simp [setSubs, lookupPat, he, heq, h]
        · simp [setSubs, lookupPat, he, heq, ih]

theorem lookup_delSubs_self (p : String) (m : Registry) :
    lookupPat p (delSubs p m) = none := by
  induction m with
  | nil => rfl
  | cons e rest ih =>
      by_cases he : e.1 = p
      · simp [delSubs, he, ih]
      · simp [delSubs, lookupPat, he, ih]

theorem lookup_delSubs_ne (p q : String) (m : Registry) (h : q ≠ p) :
    lookupPat q (delSubs p m) = lookupPat q m := by
  induction m with
  | nil => rfl
  | cons e rest ih =>
      by_cases he : e.1 = p
      · simp [delSubs, lookupPat, he, Ne.symm h, ih]
      · by_cases heq : e.1 = q
        · simp [delSubs, lookupPat, he, heq, h]
        · simp [delSubs, lookupPat, he, heq, ih]

theorem delSubs_absent (p : String) (m : Registry) (h : lookupPat p m = none) :
    delSubs p m = m := by
  induction m with
  | nil => rfl
  | cons e rest ih =>
      by_cases he : e.1 = p
      · rw [lookupPat, if_pos he] at h
        exact absurd h (by simp)
      · rw [lookupPat, if_neg he] at h
        simp [delSubs, he, ih h]

/-- The registry has no pattern entry whose subscriber list is empty. -/
def NoEmpty (m : Registry) : Prop :=
  ∀ p l, lookupPat p m = some l → l ≠ []

theorem noEmpty_register (m : Registry) (p : String) (sub : Subscriber)
    (h : NoEmpty m) : NoEmpty (registerSubscriber m p sub) := by
  intro q l hl
  unfold registerSubscriber at hl
  by_cases hq : q = p
  · subst hq
    rw [lookup_setSubs_self] at hl
    injection hl with hl2
    subst hl2
    simp
  · rw [lookup_setSubs_ne p q _ m hq] at hl
    exact h q l hl

theorem getSubs_setSubs_self (p : String) (l : List Subscriber) (m : Registry) :
    getSubs (setSubs p l m) p = l := by
  unfold getSubs
  rw [lookup_setSubs_self]
  rfl

theorem remove_lookup_ne (m : Registry) (p : String) (sub : Subscriber) (q : String)
    (hq : q ≠ p) : lookupPat q (removeSubscriber m p sub) = lookupPat q m := by
  simp only [removeSubscriber]
  by_cases h1 : (getSubs m p).any (fun x => x.id == sub.id) = true
  · rw [if_pos h1]
    by_cases h2 :
        (getSubs (setSubs p (removeFirst sub (getSubs m p)) m) p).isEmpty = true
    · rw [if_pos h2, lookup_delSubs_ne p q _ hq, lookup_setSubs_ne p q _ m hq]
    · rw [if_neg h2, lookup_setSubs_ne p q _ m hq]
  · rw [if_neg h1]
    by_cases h2 : (getSubs m p).isEmpty = true
    · rw [if_pos h2, lookup_delSubs_ne p q _ hq]
    · rw [if_neg h2]

theorem noEmpty_remove (m : Registry) (p : String) (sub : Subscriber)
    (h : NoEmpty m) : NoEmpty (removeSubscriber m p sub) := by
  intro q l hl
  by_cases hq : q = p
  · subst hq
    simp only [removeSubscriber] at hl
    by_cases h1 : (getSubs m q).any (fun x => x.id == sub.id) = true
    · rw [if_pos h1] at hl
      by_cases h2 :
          (getSubs (setSubs q (removeFirst sub (getSubs m q)) m) q).isEmpty = true
      · rw [if_pos h2, lookup_delSubs_self] at hl
        exact absurd hl (by simp)
      · rw [if_neg h2, lookup_setSubs_self] at hl
        injection hl with hl2
        intro hnil
        apply h2
        rw [getSubs_setSubs_self, hl2, hnil]
        rfl
    · rw [if_neg h1] at hl
      by_cases h2 : (getSubs m q).isEmpty = true
      · rw [if_pos h2, lookup_delSubs_self] at hl
        exact absurd hl (by simp)
      · rw [if_neg h2] at hl
        exact h q l hl
  · rw [remove_lookup_ne m p sub q hq] at hl
    exact h q l hl

/-- Registry states reachable from the empty registry by Subscribe
registrations and removeSubscriber calls. -/
inductive ReachReg : Registry → Prop where
  | init : ReachReg []
  | sub (m : Registry) (p : String) (id : Nat) (hp : p ≠ "") (h : ReachReg m) :
      ReachReg (registerSubscriber m p (mkSubscriber id p))
  | rem (m : Registry) (p : String) (s : Subscriber) (h : ReachReg m) :
      ReachReg (removeSubscriber m p s)

/-- C6: in every registry state reachable by registrations and
removals from the empty registry, no pattern entry holds an empty
subscriber list. -/
theorem no_empty_entries (m : Registry) (h : ReachReg m) : NoEmpty m := by
  induction h with
  | init =>
      intro p l hl
      simp [lookupPat] at hl
  | sub m p id hp hr ih => exact noEmpty_register m p _ ih
  | rem m p s hr ih => exact noEmpty_remove m p s ih

/-- A registry after registering one subscriber under a and removing
it again. -/
def c6reg : Registry :=
  removeSubscriber (registerSubscriber [] "a" (mkSubscriber 0 "a")) "a" (mkSubscriber 0 "a")

theorem no_empty_entries_witness :
    ReachReg c6reg ∧ (∀ p l, lookupPat p c6reg = some l → l ≠ []) :=
  ⟨ReachReg.rem _ "a" (mkSubscriber 0 "a")
      (ReachReg.sub [] "a" 0 (by decide) ReachReg.init),
   no_empty_entries c6reg
     (ReachReg.rem _ "a" (mkSubscriber 0 "a")
       (ReachReg.sub [] "a" 0 (by decide) ReachReg.init))⟩

end KVStore

namespace KVStore

theorem removeFirst_not_found (sub : Subscriber) (l : List Subscriber)
    (h : l.any (fun x => x.id == sub.id) = false) : removeFirst sub l = l := by
  induction l with
  | nil => rfl
  | cons x xs ih =>
      rw [List.any_cons, Bool.or_eq_false_iff] at h
      have hne : x.id ≠ sub.id := by simpa using h.1
      rw [removeFirst, if_neg hne, ih h.2]

theorem getSubs_delSubs_self (p : String) (m : Registry) :
    getSubs (delSubs p m) p = [] := by
  unfold getSubs
  rw [lookup_delSubs_self]
  rfl

theorem getSubs_remove_self (m : Registry) (p : String) (sub : Subscriber) :
    getSubs (removeSubscriber m p sub) p = removeFirst sub (getSubs m p) := by
  simp only [removeSubscriber]
  by_cases h1 : (getSubs m p).any (fun x => x.id == sub.id) = true
  · rw [if_pos h1]
    by_cases h2 :
        (getSubs (setSubs p (removeFirst sub (getSubs m p)) m) p).isEmpty = true
    · rw [if_pos h2]
      rw [getSubs_setSubs_self] at h2
      rw [getSubs_delSubs_self]
      exact (List.isEmpty_iff.mp h2).symm
    · rw [if_neg h2, getSubs_setSubs_self]
  · rw [if_neg h1]
    have hrf : removeFirst sub (getSubs m p) = getSubs m p :=
      removeFirst_not_found sub _ (Bool.eq_false_iff.mpr h1)
    by_cases h2 : (getSubs m p).isEmpty = true
    · rw [if_pos h2]
      rw [getSubs_delSubs_self, hrf]
      exact (List.isEmpty_iff.mp h2).symm
    · rw [if_neg h2, hrf]

theorem removeFirst_count_one (sub : Subscriber) (l : List Subscriber)
    (h : l.countP (fun x => x.id == sub.id) = 1) :
    removeFirst sub l = l.filter (fun x => !(x.id == sub.id)) := by
  induction l with
  | nil => rfl
  | cons x xs ih =>
      by_cases hx : x.id = sub.id
      · rw [removeFirst, if_pos hx]
        have hxs : xs.countP (fun y => y.id == sub.id) = 0 := by
          rw [List.countP_cons] at h
          simp only [hx, beq_self_eq_true, if_pos] at h
          omega
        rw [List.filter_cons]
        have hpx : (!(x.id == sub.id)) = false := by simp [hx]
        rw [hpx]
        simp only [Bool.false_eq_true, if_false]
        symm
        rw [List.filter_eq_self]
        intro a ha
        have := List.countP_eq_zero.mp hxs a ha
        simpa using this
      · rw [removeFirst, if_neg hx]
        have h2 : xs.countP (fun y => y.id == sub.id) = 1 := by
          rw [List.countP_cons] at h
          simp only [beq_iff_eq, hx, if_false] at h
          omega
        rw [ih h2, List.filter_cons]
        have hpx : (!(x.id == sub.id)) = true := by simp [hx]
        rw [hpx]
        simp

/-- C7: removing a subscription that is not registered under the
pattern leaves the registry unchanged (given the entry, if present, is
non-empty, which the registry invariant guarantees); removal never
touches other pattern entries; and when exactly one registered
subscriber carries the matching identity, exactly that one is removed
and every other subscriber sharing the pattern survives. -/
theorem remove_idempotent_identity (m : Registry) (p : String) (sub : Subscriber) :
    ((∀ l, lookupPat p m = some l → l ≠ [] ∧ sub.id ∉ l.map Subscriber.id) →
        removeSubscriber m p sub = m) ∧
    (∀ q, q ≠ p → lookupPat q (removeSubscriber m p sub) = lookupPat q m) ∧
    (∀ l, lookupPat p m = some l →
        l.countP (fun x => x.id == sub.id) = 1 →
        getSubs (removeSubscriber m p sub) p =
          l.filter (fun x => !(x.id == sub.id))) := by
  refine ⟨?_, fun q hq => remove_lookup_ne m p sub q hq, ?_⟩
  · intro hno
    simp only [removeSubscriber]
    cases hlk : lookupPat p m with
    | none =>
        have hany : (getSubs m p).any (fun x => x.id == sub.id) = false := by
          simp [getSubs, hlk]
        have hc1 : ¬(((getSubs m p).any fun x => x.id == sub.id) = true) := by
          simp [hany]
        rw [if_neg hc1]
        have hc2 : (getSubs m p).isEmpty = true := by
          simp [getSubs, hlk]
        rw [if_pos hc2]
        exact delSubs_absent p m hlk
    | some l =>
        obtain ⟨hne, hnid⟩ := hno l hlk
        have hany : (getSubs m p).any (fun x => x.id == sub.id) = false := by
          have hgs : getSubs m p = l := by simp [getSubs, hlk]
          rw [hgs, List.any_eq_false]
          intro x hx
          simp only [beq_iff_eq]
          intro hxe
          exact hnid (hxe ▸ List.mem_map_of_mem Subscriber.id hx)
        have hc1 : ¬(((getSubs m p).any fun x => x.id == sub.id) = true) := by
          simp [hany]
        have hif2 : ¬((getSubs m p).isEmpty = true) := by
          simp only [getSubs, hlk, Option.getD_some, List.isEmpty_iff]
          exact hne
        rw [if_neg hc1, if_neg hif2]
  · intro l hlk hcount
    have hgs : getSubs m p = l := by simp [getSubs, hlk]
    rw [getSubs_remove_self, hgs, removeFirst_count_one sub l hcount]

theorem remove_idempotent_identity_witness :
    removeSubscriber [("a", [mkSubscriber 0 "a", mkSubscriber 1 "a"])] "a"
        (mkSubscriber 7 "a") =
      [("a", [mkSubscriber 0 "a", mkSubscriber 1 "a"])] ∧
    getSubs (removeSubscriber [("a", [mkSubscriber 0 "a", mkSubscriber 1 "a"])] "a"
        (mkSubscriber 1 "a")) "a" =
      [mkSubscriber 0 "a", mkSubscriber 1 "a"].filter
        (fun x => !(x.id == (mkSubscriber 1 "a").id)) :=
  ⟨(remove_idempotent_identity [("a", [mkSubscriber 0 "a", mkSubscriber 1 "a"])] "a"
      (mkSubscriber 7 "a")).1
      (by
        intro l hl
        have h2 : some [mkSubscriber 0 "a", mkSubscriber 1 "a"] = some l := by
          rw [← hl]
          decide
        injection h2 with h3
        subst h3
        exact ⟨by decide, by decide⟩),
   (remove_idempotent_identity [("a", [mkSubscriber 0 "a", mkSubscriber 1 "a"])] "a"
      (mkSubscriber 1 "a")).2.2
      [mkSubscriber 0 "a", mkSubscriber 1 "a"] (by decide) (by decide)⟩

theorem subscribe_ok (s : ServiceState) (pat : String) (id : Nat) (hp : pat ≠ "") :
    Subscribe s pat id = Except.ok
      ({ s with subscribers := registerSubscriber s.subscribers pat (mkSubscriber id pat) },
       mkSubscriber id pat) := by
  simp [Subscribe, hp]

/-- C8: a successful Set hands exactly one ChangeEvent, carrying the
SET change type, the written key and value and the commit timestamp,
to the fan-out and updates the store; Get changes no state; and
Subscribe only appends one fresh empty-queue subscriber under its
pattern, leaving every other entry untouched and enqueuing nothing. -/
theorem set_publishes_single_event (s : ServiceState) (k v : String) (t : Int)
    (hk : k ≠ "") :
    (∃ r, Set s k v t = Except.ok
        ({ store := storeSet s.store k (GoValue.str v),
           subscribers := notifySubscribers
             { changeType := ChangeType.SET, key := k, value := v, timestamp := t }
             s.subscribers }, r)) ∧
    (∀ q, step s (Op.get q) = s) ∧
    (∀ pat id s1 hnd, pat ≠ "" → Subscribe s pat id = Except.ok (s1, hnd) →
        ∀ q, lookupPat q s1.subscribers =
          if q = pat then some (getSubs s.subscribers pat ++ [mkSubscriber id pat])
          else lookupPat q s.subscribers) := by
  refine ⟨⟨_, set_ok s k v t hk⟩, fun q => rfl, ?_⟩
  intro pat id s1 hnd hpat hsub q
  rw [subscribe_ok s pat id hpat] at hsub
  injection hsub with hpair
  have h1 : s1 =
      { s with subscribers := registerSubscriber s.subscribers pat (mkSubscriber id pat) } :=
    (congrArg Prod.fst hpair).symm
  rw [h1]
  show lookupPat q (registerSubscriber s.subscribers pat (mkSubscriber id pat)) =
    if q = pat then some (getSubs s.subscribers pat ++ [mkSubscriber id pat])
    else lookupPat q s.subscribers
  unfold registerSubscriber
  by_cases hq : q = pat
  · subst hq
    rw [if_pos rfl, lookup_setSubs_self]
  · rw [if_neg hq, lookup_setSubs_ne pat q _ _ hq]

theorem set_publishes_single_event_witness :
    ("a" : String) ≠ "" ∧
    ((∃ r, Set initState "a" "v" 3 = Except.ok
        ({ store := storeSet initState.store "a" (GoValue.str "v"),
           subscribers := notifySubscribers
             { changeType := ChangeType.SET, key := "a", value := "v", timestamp := 3 }
             initState.subscribers }, r)) ∧
     (∀ q, step initState (Op.get q) = initState) ∧
     (∀ pat id s1 hnd, pat ≠ "" → Subscribe initState pat id = Except.ok (s1, hnd) →
        ∀ q, lookupPat q s1.subscribers =
          if q = pat then some (getSubs initState.subscribers pat ++ [mkSubscriber id pat])
          else lookupPat q initState.subscribers)) :=
  ⟨by decide, set_publishes_single_event initState "a" "v" 3 (by decide)⟩

end KVStore
